import Mathlib

/-!
Formal model of the `dnscontrol-luaize` translator (`src/main.rs`).

The program translates a parsed Lua AST (produced by the external
`lua_parser` crate) into JavaScript source text.  This file gives a
shallow embedding of the translation core:

* `expr_to_str` / `funcall_to_string` model the expression translator
  (`src/main.rs` lines 36-181);
* `write_block` (with its helpers `write_stmt`, `write_stmts`,
  `write_elseifs`, `write_return`) models `BlockWriter::write_block`
  (`src/main.rs` lines 183-339);
* `luaize` models the output behaviour of `luaize` (lines 341-345).

Modelling conventions:

* Rust `Result` / the `?` operator become `Except Err` with explicit
  propagation matches (error-first, in the source's evaluation order).
* A Rust panic (slice index out of bounds) is modelled by the distinct
  error value `Err.indexOutOfBounds`; it is not an `eyre` error in the
  source, but it is the observable outcome of those inputs.
* The mutable `self.indent` counter is threaded explicitly: every writer
  function takes the current counter and returns the counter it leaves
  behind (on error paths the source's early `return` skips the
  `self.indent -= 1`, which the model reproduces faithfully).
* All intermediate `writeln!` calls in the source target a private
  `Cursor<Vec<u8>>` buffer; only the final flush loop (lines 331-335)
  writes to the caller-supplied `out`.  A call's effect on its `out` is
  therefore fully captured by the list of flushed lines it returns on
  success; on error nothing reaches `out`.  Lines are modelled without
  their trailing newline, exactly as `buf.lines()` yields them.
* String-literal bytes are `u8` values; they are modelled as `Nat`
  (every value the source can see is below 256).
* Numeric literal values are modelled as `Int`; the source calls
  `.to_string()` on the parsed value, which for the integral literals
  appearing in the claims prints the plain decimal text.
-/

/-- The two error kinds of the design (`UnsupportedConstruct`,
`IllegalIdentifier`), plus `indexOutOfBounds` for the Rust panics the
code can hit (slice indexing an empty vector).  The source constructs
errors with `eyre!`; the carried message is the format string. -/
inductive Err where
  | unsupported (msg : String)
  | illegalIdent (msg : String)
  | indexOutOfBounds (msg : String)
deriving DecidableEq, Repr

/-- Unary operators of `lua_parser::ExprUnary` as consumed by the match
in `expr_to_str` (lines 94-113).  `other` stands for every remaining
variant (logical/bitwise not), which the source rejects. -/
inductive UnOp where
  | length
  | minus
  | plus
  | other (name : String)
deriving DecidableEq, Repr

/-- Binary operators of `lua_parser::ExprBinary` as consumed by the
match in `expr_to_str` (lines 114-130).  `other` stands for every
remaining variant (and/or, bitwise, pow, shifts, ...), which the source
rejects. -/
inductive BinOp where
  | add
  | sub
  | mul
  | div
  | floorDiv
  | mod
  | concat
  | equal
  | notEqual
  | greaterThan
  | greaterEqual
  | lessThan
  | lessEqual
  | other (name : String)
deriving DecidableEq, Repr

mutual

/-- `lua_parser::Expression`, restricted to the fields the translator
reads.  `other` stands for the remaining variants (anonymous functions,
varargs, ...), rejected by the catch-all arm (line 177). -/
inductive Expression where
  | ident (name : String)
  | bool (value : Bool)
  | numeric (value : Int)
  | nil
  | string (value : List Nat)
  | unary (op : UnOp) (value : Expression)
  | binary (op : BinOp) (lhs rhs : Expression)
  | functionCall (call : ExprFunctionCall)
  | table (fields : FieldList)
  | tableIndex (table index : Expression)
  | other (name : String)

/-- `lua_parser::ExprFunctionCall`: the call target (the source names
this field after the Lua grammar's prefix-expression), the optional
method name (`obj:m(...)` form), and the argument list
(`expr.args.args`). -/
inductive ExprFunctionCall where
  | mk (pre : Expression) (method : Option String) (args : ExprList)

/-- `Vec<Expression>` occurrences inside the mutually defined AST. -/
inductive ExprList where
  | nil
  | cons (head : Expression) (tail : ExprList)

/-- `lua_parser::TableField` (lines 146-161): keyed field, named field,
or a positional (keyless) field, which the source rejects. -/
inductive TableField where
  | keyValue (key value : Expression)
  | nameValue (name : String) (value : Expression)
  | value (v : Expression)

/-- `Vec<TableField>` inside the mutually defined AST. -/
inductive FieldList where
  | nil
  | cons (head : TableField) (tail : FieldList)

end

/-- Length of an `ExprList` (`Vec::len`). -/
def ExprList.length : ExprList → Nat
  | .nil => 0
  | .cons _ t => t.length + 1

/-- `Vec::is_empty` for `ExprList`. -/
def ExprList.isEmpty : ExprList → Bool
  | .nil => true
  | .cons _ _ => false

/-- The operator substitution performed by the match on
`ExprBinary` (lines 115-130): each supported variant selects its target
operator text, every other variant takes the
`Unsupported binary operator` early return (modelled as `none`). -/
def binop_str : BinOp → Option String
  | .add => some "+"
  | .sub => some "-"
  | .mul => some "*"
  | .div => some "/"
  | .floorDiv => some "/"
  | .mod => some "*"
  | .concat => some "+"
  | .equal => some "==="
  | .notEqual => some "!=="
  | .greaterThan => some ">"
  | .greaterEqual => some ">="
  | .lessThan => some "<"
  | .lessEqual => some "<="
  | .other _ => none

/-- One byte of a string literal as printed by `format!("\\x{:x?}", c)`
(line 90): a backslash, an `x`, then the lowercase hex digits of the
byte with no zero padding (`{:x?}` on an integer prints bare lowercase
hex). -/
def byte_escape (c : Nat) : String :=
  "\\x" ++ String.mk (Nat.toDigits 16 c)

/-- The body of a rendered string literal: every byte escaped in order
(loop at lines 89-91). -/
def string_bytes_to_str : List Nat → String
  | [] => ""
  | c :: rest => byte_escape c ++ string_bytes_to_str rest

mutual

/-- `funcall_to_string` (`src/main.rs` lines 36-64).  When `method` is
present the rendered callee is the bare method name and the call target
is additionally rendered as the first argument (followed by a comma
separator exactly when the argument list is nonempty). -/
def funcall_to_string : ExprFunctionCall → Except Err String
  | .mk p m args =>
    match (match m with
           | Option.some nm => Except.ok nm
           | Option.none => expr_to_str p) with
    | .error e => .error e
    | .ok head =>
      match (match m with
             | Option.some _ =>
               (match expr_to_str p with
                | .error e => Except.error e
                | .ok recv =>
                  Except.ok (recv ++ (if args.isEmpty then "" else ", ")))
             | Option.none => Except.ok "") with
      | .error e => .error e
      | .ok mid =>
        match args_to_str args with
        | .error e => .error e
        | .ok argsS => .ok (head ++ "(" ++ mid ++ argsS ++ ")")

/-- The argument loop of `funcall_to_string` (lines 53-59): arguments
rendered in order, separated by a comma and a space. -/
def args_to_str : ExprList → Except Err String
  | .nil => .ok ""
  | .cons e rest =>
    match expr_to_str e with
    | .error err => .error err
    | .ok s =>
      match rest with
      | .nil => .ok s
      | .cons _ _ =>
        match args_to_str rest with
        | .error err => .error err
        | .ok t => .ok (s ++ ", " ++ t)

/-- `expr_to_str` (`src/main.rs` lines 66-181). -/
def expr_to_str : Expression → Except Err String
  | .ident name =>
    if name = "this" then .error (.illegalIdent "Illegal identifier 'this'")
    else .ok name
  | .bool v => .ok (if v then "true" else "false")
  | .numeric v => .ok (toString v)
  | .nil => .ok "undefined"
  | .string bytes => .ok ("\"" ++ string_bytes_to_str bytes ++ "\"")
  | .unary .length e =>
    match expr_to_str e with
    | .error err => .error err
    | .ok s => .ok ("(" ++ s ++ ".length)")
  | .unary .minus e =>
    match expr_to_str e with
    | .error err => .error err
    | .ok s => .ok ("(-" ++ s ++ ")")
  | .unary .plus e =>
    match expr_to_str e with
    | .error err => .error err
    | .ok s => .ok ("(+" ++ s ++ ")")
  | .unary (.other name) _ =>
    .error (.unsupported ("Expression currently unsupported: " ++ name))
  | .binary op lhs rhs =>
    match binop_str op with
    | Option.none => .error (.unsupported "Unsupported binary operator")
    | Option.some opS =>
      match expr_to_str lhs with
      | .error err => .error err
      | .ok ls =>
        match expr_to_str rhs with
        | .error err => .error err
        | .ok rs => .ok ("(" ++ ls ++ opS ++ rs ++ ")")
  | .functionCall c => funcall_to_string c
  | .table fields =>
    match fields_to_str fields with
    | .error err => .error err
    | .ok s => .ok ("(\x7b" ++ s ++ "\x7d)")
  | .tableIndex t i =>
    match expr_to_str t with
    | .error err => .error err
    | .ok ts =>
      match expr_to_str i with
      | .error err => .error err
      | .ok is => .ok ("(" ++ ts ++ "[" ++ is ++ "])")
  | .other name => .error (.unsupported ("Expression unsupported: " ++ name))

/-- The table-field loop (lines 144-166): fields rendered in order,
separated by a comma and a space. -/
def fields_to_str : FieldList → Except Err String
  | .nil => .ok ""
  | .cons f rest =>
    match field_to_str f with
    | .error err => .error err
    | .ok s =>
      match rest with
      | .nil => .ok s
      | .cons _ _ =>
        match fields_to_str rest with
        | .error err => .error err
        | .ok t => .ok (s ++ ", " ++ t)

/-- One table field (lines 146-161). -/
def field_to_str : TableField → Except Err String
  | .keyValue k v =>
    match expr_to_str k with
    | .error err => .error err
    | .ok ks =>
      match expr_to_str v with
      | .error err => .error err
      | .ok vs => .ok (ks ++ ": " ++ vs)
  | .nameValue n v =>
    match expr_to_str v with
    | .error err => .error err
    | .ok vs => .ok ("\"" ++ n ++ "\": " ++ vs)
  | .value _ =>
    .error (.unsupported "Table value without a key currently unsupported")

end

/-- `lua_parser::ReturnStatement`: the list of returned value
expressions (`stmt.values`). -/
structure ReturnStatement where
  values : ExprList

mutual

/-- `lua_parser::Statement`, restricted to the fields the translator
reads (`src/main.rs` lines 202-319).  `localDeclaration` keeps the
declared names as their strings (the source reads `names[i].name`);
the function definitions keep the parameter names and the `variadic`
flag of `stmt.body.parameters`; `functionDefinition` keeps the
`stmt.name.names` path of which the source renders element 0.  `other`
stands for every remaining variant, rejected by the catch-all arm
(line 316). -/
inductive Statement where
  | noneS
  | assignment (lhs rhs : ExprList)
  | localDeclaration (names : List String) (values : Option ExprList)
  | ifS (condition : Expression) (block : Block) (elseIfs : ElseIfList)
      (elseBlock : OptBlock)
  | whileS (condition : Expression) (block : Block)
  | forS (name : String) (start stop step : Expression) (block : Block)
  | breakS
  | doS (block : Block)
  | functionCall (call : ExprFunctionCall)
  | functionDefinition (names : List String) (paramNames : List String)
      (variadic : Bool) (block : Block)
  | functionDefinitionLocal (name : String) (paramNames : List String)
      (variadic : Bool) (block : Block)
  | other (name : String)

/-- One `else if` arm of `StmtIf` (condition and block). -/
inductive ElseIf where
  | mk (condition : Expression) (block : Block)

/-- `Vec<ElseIf>` inside the mutually defined AST. -/
inductive ElseIfList where
  | nil
  | cons (head : ElseIf) (tail : ElseIfList)

/-- `Option<Block>` inside the mutually defined AST (the `else`
block). -/
inductive OptBlock where
  | none
  | some (b : Block)

/-- `Vec<Statement>` inside the mutually defined AST. -/
inductive StmtList where
  | nil
  | cons (head : Statement) (tail : StmtList)

/-- `lua_parser::Block`: ordered statements plus the optional trailing
return statement. -/
inductive Block where
  | mk (statements : StmtList) (returnStatement : Option ReturnStatement)

end

/-- `"    ".repeat(n)` (line 333). -/
def indentStr (n : Nat) : String :=
  String.join (List.replicate n "    ")

/-- The trailing-return handling of `write_block` (lines 322-327):
more than one value is `UnsupportedConstruct`; otherwise the source
renders `expr_to_str(&stmt.values[0])`, which on an empty value list
panics with a slice index out of bounds. -/
def write_return : Option ReturnStatement → Except Err (List String)
  | Option.none => .ok []
  | Option.some r =>
    if 1 < r.values.length then
      .error (.unsupported "Multiple return values currently unsupported")
    else
      match r.values with
      | .nil =>
        .error (.indexOutOfBounds "index out of bounds: the len is 0 but the index is 0")
      | .cons v _ =>
        match expr_to_str v with
        | .error e => .error e
        | .ok s => .ok ["return " ++ s ++ ";"]

mutual

/-- `BlockWriter::write_block` (`src/main.rs` lines 192-338).
`ind` is the value of `self.indent` on entry; the returned `Nat` is the
value of `self.indent` when control returns to the caller (the source
increments at line 200 and only decrements on the success path at
line 329).  On success the returned lines are exactly what the flush
loop (lines 331-335) writes to the caller-supplied `out`, each line
prefixed with `indentStr` of the decremented counter; on error nothing
is written to `out`. -/
def write_block (ind : Nat) : Block → Except Err (List String) × Nat
  | .mk stmts ret =>
    match write_stmts (ind + 1) stmts with
    | (.error e, i) => (.error e, i)
    | (.ok buf, i) =>
      match write_return ret with
      | .error e => (.error e, i)
      | .ok retLines =>
        (.ok ((buf ++ retLines).map (fun l => indentStr (i - 1) ++ l)), i - 1)

/-- The statement loop of `write_block` (lines 202-320): statements
rendered in order into the private buffer, the first error aborting the
loop. -/
def write_stmts (i : Nat) : StmtList → Except Err (List String) × Nat
  | .nil => (.ok [], i)
  | .cons s rest =>
    match write_stmt i s with
    | (.error e, i1) => (.error e, i1)
    | (.ok lines, i1) =>
      match write_stmts i1 rest with
      | (.error e, i2) => (.error e, i2)
      | (.ok lines2, i2) => (.ok (lines ++ lines2), i2)

/-- One arm of the statement dispatch in `write_block`
(lines 203-319); `i` is the current `self.indent`, which nested
`self.write_block(out, ...)` calls receive as their entry value. -/
def write_stmt (i : Nat) : Statement → Except Err (List String) × Nat
  | .noneS => (.ok [";"], i)
  | .assignment lhs rhs =>
    if 1 < lhs.length ∨ 1 < rhs.length then
      (.error (.unsupported "Parallel assignment currently unsupported"), i)
    else
      match lhs with
      | .nil =>
        (.error (.indexOutOfBounds "index out of bounds: the len is 0 but the index is 0"), i)
      | .cons l _ =>
        match expr_to_str l with
        | .error e => (.error e, i)
        | .ok ls =>
          match rhs with
          | .nil =>
            (.error (.indexOutOfBounds "index out of bounds: the len is 0 but the index is 0"), i)
          | .cons r _ =>
            match expr_to_str r with
            | .error e => (.error e, i)
            | .ok rs => (.ok [ls ++ " = " ++ rs ++ ";"], i)
  | .localDeclaration names values =>
    if 1 < names.length then
      (.error (.unsupported "Local multiple declarations currently unsupported"), i)
    else
      match values with
      | Option.none =>
        (.error (.unsupported "Local declarations without assignment unsupported"), i)
      | Option.some vs =>
        match names with
        | [] =>
          (.error (.indexOutOfBounds "index out of bounds: the len is 0 but the index is 0"), i)
        | n :: _ =>
          match vs with
          | .nil =>
            (.error (.indexOutOfBounds "index out of bounds: the len is 0 but the index is 0"), i)
          | .cons v _ =>
            match expr_to_str v with
            | .error e => (.error e, i)
            | .ok s => (.ok ["var " ++ n ++ " = " ++ s ++ ";"], i)
  | .ifS cond blk elifs elseB =>
    match expr_to_str cond with
    | .error e => (.error e, i)
    | .ok c =>
      match write_block i blk with
      | (.error e, i1) => (.error e, i1)
      | (.ok bl, i1) =>
        match write_elseifs i1 elifs with
        | (.error e, i2) => (.error e, i2)
        | (.ok el, i2) =>
          match write_elseblock i2 elseB with
          | (.error e, i3) => (.error e, i3)
          | (.ok eb, i3) =>
            (.ok (((("if (" ++ c ++ ") \x7b") :: bl ++ ["\x7d"]) ++ el) ++ eb), i3)
  | .whileS cond blk =>
    match expr_to_str cond with
    | .error e => (.error e, i)
    | .ok c =>
      match write_block i blk with
      | (.error e, i1) => (.error e, i1)
      | (.ok bl, i1) =>
        (.ok (("while (" ++ c ++ ") \x7b") :: bl ++ ["\x7d"]), i1)
  | .forS nm start stop step blk =>
    match expr_to_str start with
    | .error e => (.error e, i)
    | .ok s1 =>
      match expr_to_str stop with
      | .error e => (.error e, i)
      | .ok s2 =>
        match expr_to_str step with
        | .error e => (.error e, i)
        | .ok s3 =>
          match write_block i blk with
          | (.error e, i1) => (.error e, i1)
          | (.ok bl, i1) =>
            (.ok (("for (var " ++ nm ++ " = " ++ s1 ++ "; " ++ s2 ++ "; "
              ++ s3 ++ ") \x7b") :: bl ++ ["\x7d"]), i1)
  | .breakS => (.ok ["break;"], i)
  | .doS blk =>
    match write_block i blk with
    | (.error e, i1) => (.error e, i1)
    | (.ok bl, i1) => (.ok ("(function() \x7b" :: bl ++ ["\x7d)();"]), i1)
  | .functionCall c =>
    match funcall_to_string c with
    | .error e => (.error e, i)
    | .ok s => (.ok [s ++ ";"], i)
  | .functionDefinition names params variadic blk =>
    if variadic then
      (.error (.unsupported "Variadic functions currently unsupported"), i)
    else
      match names with
      | [] =>
        (.error (.indexOutOfBounds "index out of bounds: the len is 0 but the index is 0"), i)
      | n :: _ =>
        match write_block i blk with
        | (.error e, i1) => (.error e, i1)
        | (.ok bl, i1) =>
          (.ok (("function " ++ n ++ "(" ++ String.intercalate ", " params
            ++ ") \x7b") :: bl ++ ["\x7d"]), i1)
  | .functionDefinitionLocal nm params variadic blk =>
    if variadic then
      (.error (.unsupported "Variadic functions currently unsupported"), i)
    else
      match write_block i blk with
      | (.error e, i1) => (.error e, i1)
      | (.ok bl, i1) =>
        (.ok (("var " ++ nm ++ " = (" ++ String.intercalate ", " params
          ++ ") => \x7b") :: bl ++ ["\x7d;"]), i1)
  | .other name => (.error (.unsupported ("Statement unsupported: " ++ name)), i)

/-- The optional `else` tail of the `If` arm (lines 244-248): when the
`else` block is absent nothing is rendered and the counter is
untouched; otherwise the `else` header, the recursively rendered block
and the closing brace. -/
def write_elseblock (i : Nat) : OptBlock → Except Err (List String) × Nat
  | .none => (.ok [], i)
  | .some b2 =>
    match write_block i b2 with
    | (.error e, i1) => (.error e, i1)
    | (.ok bl2, i1) => (.ok ("else \x7b" :: bl2 ++ ["\x7d"]), i1)

/-- The `else if` loop of the `If` arm (lines 238-242). -/
def write_elseifs (i : Nat) : ElseIfList → Except Err (List String) × Nat
  | .nil => (.ok [], i)
  | .cons (.mk cond blk) rest =>
    match expr_to_str cond with
    | .error e => (.error e, i)
    | .ok c =>
      match write_block i blk with
      | (.error e, i1) => (.error e, i1)
      | (.ok bl, i1) =>
        match write_elseifs i1 rest with
        | (.error e, i2) => (.error e, i2)
        | (.ok rl, i2) =>
          (.ok ((("else if (" ++ c ++ ") \x7b") :: bl ++ ["\x7d"]) ++ rl), i2)

end

/-- `luaize` (`src/main.rs` lines 341-345), modelled from the parsed
AST on: it invokes `write_block` on a fresh `BlockWriter` (indent 0)
against the destination `dest` (the output file's lines so far).
Reading and parsing `dnscontrol.lua` is the external parser
collaborator and is out of scope.  The destination receives the flushed
lines on success and nothing on error (all earlier writes in the source
go to the private buffer, never to `out`). -/
def luaize (ast : Block) (dest : List String) : Except Err Unit × List String :=
  match write_block 0 ast with
  | (.ok lines, _) => (.ok (), dest ++ lines)
  | (.error e, _) => (.error e, dest)

/-- The byte stream a successful top-level translation writes, as one
string: each flushed line followed by the newline that `writeln!`
appends. -/
def linesToText (ls : List String) : String :=
  String.join (ls.map (fun l => l ++ "\n"))

/-- The output text of translating a top-level block, `none` when
translation fails. -/
def rendered_text (b : Block) : Option String :=
  match write_block 0 b with
  | (.ok ls, _) => Option.some (linesToText ls)
  | (.error _, _) => Option.none

/-- Hexadecimal digit recognizer for the target language's string
escape syntax (`0`-`9`, `a`-`f` as emitted by `{:x?}`). -/
def isHexDigit (c : Char) : Bool :=
  ('0' ≤ c && c ≤ '9') || ('a' ≤ c && c ≤ 'f')

/-- Value of a hexadecimal digit character. -/
def hexVal (c : Char) : Nat :=
  if '0' ≤ c && c ≤ '9' then c.toNat - '0'.toNat else c.toNat - 'a'.toNat + 10

/-- Decoder for a string-literal body made of well-formed target
language hexadecimal escapes: a sequence of `\xHH` groups, each with
exactly two hex digits (the target language's `\x` escape accepts
exactly two).  Returns the decoded byte sequence, or `none` when the
body is not such a sequence. -/
def decodeHexEscapes : List Char → Option (List Nat)
  | [] => some []
  | '\\' :: 'x' :: d1 :: d2 :: rest =>
    if isHexDigit d1 && isHexDigit d2 then
      match decodeHexEscapes rest with
      | some bs => some ((16 * hexVal d1 + hexVal d2) :: bs)
      | none => none
    else none
  | _ => none

/-- A statement the translator rejects: `a, b = 1` (parallel
assignment). -/
def parallelAssignStmt : Statement :=
  .assignment (.cons (.ident "a") (.cons (.ident "b") .nil))
    (.cons (.numeric 1) .nil)

/-- Top-level block holding only `a, b = 1`. -/
def parallelAssignBlock : Block := .mk (.cons parallelAssignStmt .nil) Option.none

/-- Top-level block holding one unsupported statement variant (for
example a goto). -/
def unsupportedStmtBlock : Block := .mk (.cons (.other "Goto") .nil) Option.none

/-- The parse of `while a do while b do break end end`: a depth-1 while
whose body is a depth-2 while whose body is `break`. -/
def nestedWhileBlock : Block :=
  .mk (.cons (.whileS (.ident "a")
        (.mk (.cons (.whileS (.ident "b")
              (.mk (.cons .breakS .nil) Option.none)) .nil) Option.none)) .nil)
    Option.none

/-- The parse of `if x > 0 then return 1 else return -1 end`
(`-1` parses as unary minus applied to the numeral `1`). -/
def ifScenarioBlock : Block :=
  .mk (.cons (.ifS (.binary .greaterThan (.ident "x") (.numeric 0))
        (.mk .nil (Option.some ⟨.cons (.numeric 1) .nil⟩))
        .nil
        (.some (.mk .nil (Option.some ⟨.cons (.unary .minus (.numeric 1)) .nil⟩))))
      .nil)
    Option.none

/-- A block whose trailing return statement carries no values
(bare `return`). -/
def bareReturnBlock : Block := .mk .nil (Option.some ⟨.nil⟩)

/-- A block whose trailing return statement carries two values
(`return 1, 2`). -/
def twoValueReturnBlock : Block :=
  .mk .nil (Option.some ⟨.cons (.numeric 1) (.cons (.numeric 2) .nil)⟩)


example : expr_to_str (.ident "x") = .ok "x" := rfl
example : expr_to_str (.string [10]) = .ok "\"\\xa\"" := rfl
example : expr_to_str (.string [171]) = .ok "\"\\xab\"" := rfl
example : expr_to_str (.binary .greaterThan (.ident "x") (.numeric 0))
    = .ok "(x>0)" := rfl
example :
    funcall_to_string (.mk (.ident "obj") (Option.some "m")
      (.cons (.ident "x") .nil)) = .ok "m(obj, x)" := rfl
example :
    funcall_to_string (.mk (.ident "obj") (Option.some "m") .nil)
      = .ok "m(obj)" := rfl


example :
    write_block 0 (.mk (.cons (.localDeclaration ["x"]
        (Option.some (.cons (.numeric 1) .nil))) .nil)
      (Option.some ⟨.cons (.ident "x") .nil⟩))
    = (.ok ["var x = 1;", "return x;"], 0) := rfl


/-! Unfolding equations for `write_stmt`, stated per constructor and
proved by `rfl` (the equation generator of the mutual definition is not
used). -/

theorem write_stmt_eq_noneS (i : Nat) :
    write_stmt i .noneS = (.ok [";"], i) := rfl

theorem write_stmt_eq_assignment (i : Nat) (lhs rhs : ExprList) :
    write_stmt i (.assignment lhs rhs) =
      if 1 < lhs.length ∨ 1 < rhs.length then
        (.error (.unsupported "Parallel assignment currently unsupported"), i)
      else
        match lhs with
        | .nil =>
          (.error (.indexOutOfBounds "index out of bounds: the len is 0 but the index is 0"), i)
        | .cons l _ =>
          match expr_to_str l with
          | .error e => (.error e, i)
          | .ok ls =>
            match rhs with
            | .nil =>
              (.error (.indexOutOfBounds "index out of bounds: the len is 0 but the index is 0"), i)
            | .cons r _ =>
              match expr_to_str r with
              | .error e => (.error e, i)
              | .ok rs => (.ok [ls ++ " = " ++ rs ++ ";"], i) := rfl

theorem write_stmt_eq_localDeclaration (i : Nat) (names : List String)
    (values : Option ExprList) :
    write_stmt i (.localDeclaration names values) =
      if 1 < names.length then
        (.error (.unsupported "Local multiple declarations currently unsupported"), i)
      else
        match values with
        | Option.none =>
          (.error (.unsupported "Local declarations without assignment unsupported"), i)
        | Option.some vs =>
          match names with
          | [] =>
            (.error (.indexOutOfBounds "index out of bounds: the len is 0 but the index is 0"), i)
          | n :: _ =>
            match vs with
            | .nil =>
              (.error (.indexOutOfBounds "index out of bounds: the len is 0 but the index is 0"), i)
            | .cons v _ =>
              match expr_to_str v with
              | .error e => (.error e, i)
              | .ok s => (.ok ["var " ++ n ++ " = " ++ s ++ ";"], i) := rfl

theorem write_stmt_eq_ifS (i : Nat) (cond : Expression) (blk : Block)
    (elifs : ElseIfList) (elseB : OptBlock) :
    write_stmt i (.ifS cond blk elifs elseB) =
      match expr_to_str cond with
      | .error e => (.error e, i)
      | .ok c =>
        match write_block i blk with
        | (.error e, i1) => (.error e, i1)
        | (.ok bl, i1) =>
          match write_elseifs i1 elifs with
          | (.error e, i2) => (.error e, i2)
          | (.ok el, i2) =>
            match write_elseblock i2 elseB with
            | (.error e, i3) => (.error e, i3)
            | (.ok eb, i3) =>
              (.ok (((("if (" ++ c ++ ") \x7b") :: bl ++ ["\x7d"]) ++ el) ++ eb), i3)
    := rfl

theorem write_stmt_eq_whileS (i : Nat) (cond : Expression) (blk : Block) :
    write_stmt i (.whileS cond blk) =
      match expr_to_str cond with
      | .error e => (.error e, i)
      | .ok c =>
        match write_block i blk with
        | (.error e, i1) => (.error e, i1)
        | (.ok bl, i1) =>
          (.ok (("while (" ++ c ++ ") \x7b") :: bl ++ ["\x7d"]), i1) := rfl

theorem write_stmt_eq_forS (i : Nat) (nm : String) (start stop step : Expression)
    (blk : Block) :
    write_stmt i (.forS nm start stop step blk) =
      match expr_to_str start with
      | .error e => (.error e, i)
      | .ok s1 =>
        match expr_to_str stop with
        | .error e => (.error e, i)
        | .ok s2 =>
          match expr_to_str step with
          | .error e => (.error e, i)
          | .ok s3 =>
            match write_block i blk with
            | (.error e, i1) => (.error e, i1)
            | (.ok bl, i1) =>
              (.ok (("for (var " ++ nm ++ " = " ++ s1 ++ "; " ++ s2 ++ "; "
                ++ s3 ++ ") \x7b") :: bl ++ ["\x7d"]), i1) := rfl

theorem write_stmt_eq_breakS (i : Nat) :
    write_stmt i .breakS = (.ok ["break;"], i) := rfl

theorem write_stmt_eq_doS (i : Nat) (blk : Block) :
    write_stmt i (.doS blk) =
      match write_block i blk with
      | (.error e, i1) => (.error e, i1)
      | (.ok bl, i1) => (.ok ("(function() \x7b" :: bl ++ ["\x7d)();"]), i1) := rfl

theorem write_stmt_eq_functionCall (i : Nat) (c : ExprFunctionCall) :
    write_stmt i (.functionCall c) =
      match funcall_to_string c with
      | .error e => (.error e, i)
      | .ok s => (.ok [s ++ ";"], i) := rfl

theorem write_stmt_eq_functionDefinition (i : Nat) (names : List String)
    (params : List String) (variadic : Bool) (blk : Block) :
    write_stmt i (.functionDefinition names params variadic blk) =
      if variadic then
        (.error (.unsupported "Variadic functions currently unsupported"), i)
      else
        match names with
        | [] =>
          (.error (.indexOutOfBounds "index out of bounds: the len is 0 but the index is 0"), i)
        | n :: _ =>
          match write_block i blk with
          | (.error e, i1) => (.error e, i1)
          | (.ok bl, i1) =>
            (.ok (("function " ++ n ++ "(" ++ String.intercalate ", " params
              ++ ") \x7b") :: bl ++ ["\x7d"]), i1) := rfl

theorem write_stmt_eq_functionDefinitionLocal (i : Nat) (nm : String)
    (params : List String) (variadic : Bool) (blk : Block) :
    write_stmt i (.functionDefinitionLocal nm params variadic blk) =
      if variadic then
        (.error (.unsupported "Variadic functions currently unsupported"), i)
      else
        match write_block i blk with
        | (.error e, i1) => (.error e, i1)
        | (.ok bl, i1) =>
          (.ok (("var " ++ nm ++ " = (" ++ String.intercalate ", " params
            ++ ") => \x7b") :: bl ++ ["\x7d;"]), i1) := rfl

theorem write_stmt_eq_other (i : Nat) (name : String) :
    write_stmt i (.other name) =
      (.error (.unsupported ("Statement unsupported: " ++ name)), i) := rfl


mutual

/-- On the success path `write_block` restores `self.indent` to its
entry value: the counter is incremented on entry and decremented just
before the flush. -/
theorem write_block_ok_state (ind : Nat) (b : Block) :
    ∀ l j, write_block ind b = (Except.ok l, j) → j = ind := by
  cases b with
  | mk stmts ret =>
    intro l j h
    simp only [write_block] at h
    cases h1 : write_stmts (ind + 1) stmts with
    | mk r i =>
      simp only [h1] at h
      cases r with
      | error e => simp at h
      | ok buf =>
        cases h2 : write_return ret with
        | error e => simp only [h2] at h; simp at h
        | ok retLines =>
          simp only [h2, Prod.mk.injEq, Except.ok.injEq] at h
          have a1 := write_stmts_ok_state (ind + 1) stmts buf i h1
          omega

/-- On the success path the statement loop leaves `self.indent`
unchanged. -/
theorem write_stmts_ok_state (i : Nat) (ss : StmtList) :
    ∀ l j, write_stmts i ss = (Except.ok l, j) → j = i := by
  cases ss with
  | nil =>
    intro l j h
    simp only [write_stmts, Prod.mk.injEq, Except.ok.injEq] at h
    omega
  | cons s rest =>
    intro l j h
    simp only [write_stmts] at h
    cases h1 : write_stmt i s with
    | mk r i1 =>
      simp only [h1] at h
      cases r with
      | error e => simp at h
      | ok lines =>
        cases h2 : write_stmts i1 rest with
        | mk r2 i2 =>
          simp only [h2] at h
          cases r2 with
          | error e => simp at h
          | ok lines2 =>
            simp only [Prod.mk.injEq, Except.ok.injEq] at h
            have a1 := write_stmt_ok_state i s lines i1 h1
            have a2 := write_stmts_ok_state i1 rest lines2 i2 h2
            omega

/-- On the success path one statement dispatch leaves `self.indent`
unchanged. -/
theorem write_stmt_ok_state (i : Nat) (s : Statement) :
    ∀ l j, write_stmt i s = (Except.ok l, j) → j = i := by
  cases s with
  | noneS =>
    intro l j h
    rw [write_stmt_eq_noneS] at h
    simp only [Prod.mk.injEq, Except.ok.injEq] at h
    omega
  | assignment lhs rhs =>
    intro l j h
    rw [write_stmt_eq_assignment] at h
    split at h
    · simp at h
    · cases lhs with
      | nil => simp at h
      | cons lh lt =>
        cases hl : expr_to_str lh with
        | error e => simp only [hl] at h; simp at h
        | ok ls =>
          simp only [hl] at h
          cases rhs with
          | nil => simp at h
          | cons rh rt =>
            cases hr : expr_to_str rh with
            | error e => simp only [hr] at h; simp at h
            | ok rs =>
              simp only [hr, Prod.mk.injEq, Except.ok.injEq] at h
              omega
  | localDeclaration names values =>
    intro l j h
    rw [write_stmt_eq_localDeclaration] at h
    split at h
    · simp at h
    · cases values with
      | none => simp at h
      | some vs =>
        cases names with
        | nil => simp at h
        | cons n nt =>
          cases vs with
          | nil => simp at h
          | cons v vt =>
            cases hv : expr_to_str v with
            | error e => simp only [hv] at h; simp at h
            | ok s' =>
              simp only [hv, Prod.mk.injEq, Except.ok.injEq] at h
              omega
  | ifS cond blk elifs elseB =>
    intro l j h
    rw [write_stmt_eq_ifS] at h
    cases hc : expr_to_str cond with
    | error e => simp only [hc] at h; simp at h
    | ok c =>
      simp only [hc] at h
      cases hb : write_block i blk with
      | mk r i1 =>
        simp only [hb] at h
        cases r with
        | error e => simp at h
        | ok bl =>
          cases he : write_elseifs i1 elifs with
          | mk r2 i2 =>
            simp only [he] at h
            cases r2 with
            | error e => simp at h
            | ok el =>
              have a1 := write_block_ok_state i blk bl i1 hb
              have a2 := write_elseifs_ok_state i1 elifs el i2 he
              cases hb2 : write_elseblock i2 elseB with
              | mk r3 i3 =>
                simp only [hb2] at h
                cases r3 with
                | error e => simp at h
                | ok eb =>
                  simp only [Prod.mk.injEq, Except.ok.injEq] at h
                  have a3 := write_elseblock_ok_state i2 elseB eb i3 hb2
                  omega
  | whileS cond blk =>
    intro l j h
    rw [write_stmt_eq_whileS] at h
    cases hc : expr_to_str cond with
    | error e => simp only [hc] at h; simp at h
    | ok c =>
      simp only [hc] at h
      cases hb : write_block i blk with
      | mk r i1 =>
        simp only [hb] at h
        cases r with
        | error e => simp at h
        | ok bl =>
          simp only [Prod.mk.injEq, Except.ok.injEq] at h
          have a1 := write_block_ok_state i blk bl i1 hb
          omega
  | forS nm start stop step blk =>
    intro l j h
    rw [write_stmt_eq_forS] at h
    cases h1 : expr_to_str start with
    | error e => simp only [h1] at h; simp at h
    | ok s1 =>
      simp only [h1] at h
      cases h2 : expr_to_str stop with
      | error e => simp only [h2] at h; simp at h
      | ok s2 =>
        simp only [h2] at h
        cases h3 : expr_to_str step with
        | error e => simp only [h3] at h; simp at h
        | ok s3 =>
          simp only [h3] at h
          cases hb : write_block i blk with
          | mk r i1 =>
            simp only [hb] at h
            cases r with
            | error e => simp at h
            | ok bl =>
              simp only [Prod.mk.injEq, Except.ok.injEq] at h
              have a1 := write_block_ok_state i blk bl i1 hb
              omega
  | breakS =>
    intro l j h
    rw [write_stmt_eq_breakS] at h
    simp only [Prod.mk.injEq, Except.ok.injEq] at h
    omega
  | doS blk =>
    intro l j h
    rw [write_stmt_eq_doS] at h
    cases hb : write_block i blk with
    | mk r i1 =>
      simp only [hb] at h
      cases r with
      | error e => simp at h
      | ok bl =>
        simp only [Prod.mk.injEq, Except.ok.injEq] at h
        have a1 := write_block_ok_state i blk bl i1 hb
        omega
  | functionCall c =>
    intro l j h
    rw [write_stmt_eq_functionCall] at h
    cases hf : funcall_to_string c with
    | error e => simp only [hf] at h; simp at h
    | ok s' =>
      simp only [hf, Prod.mk.injEq, Except.ok.injEq] at h
      omega
  | functionDefinition names params variadic blk =>
    intro l j h
    rw [write_stmt_eq_functionDefinition] at h
    split at h
    · simp at h
    · cases names with
      | nil => simp at h
      | cons n nt =>
        cases hb : write_block i blk with
        | mk r i1 =>
          simp only [hb] at h
          cases r with
          | error e => simp at h
          | ok bl =>
            simp only [Prod.mk.injEq, Except.ok.injEq] at h
            have a1 := write_block_ok_state i blk bl i1 hb
            omega
  | functionDefinitionLocal nm params variadic blk =>
    intro l j h
    rw [write_stmt_eq_functionDefinitionLocal] at h
    split at h
    · simp at h
    · cases hb : write_block i blk with
      | mk r i1 =>
        simp only [hb] at h
        cases r with
        | error e => simp at h
        | ok bl =>
          simp only [Prod.mk.injEq, Except.ok.injEq] at h
          have a1 := write_block_ok_state i blk bl i1 hb
          omega
  | other name =>
    intro l j h
    rw [write_stmt_eq_other] at h
    simp at h

/-- On the success path the optional `else` tail leaves `self.indent`
unchanged. -/
theorem write_elseblock_ok_state (i : Nat) (ob : OptBlock) :
    ∀ l j, write_elseblock i ob = (Except.ok l, j) → j = i := by
  cases ob with
  | none =>
    intro l j h
    simp only [write_elseblock, Prod.mk.injEq, Except.ok.injEq] at h
    omega
  | some b2 =>
    intro l j h
    simp only [write_elseblock] at h
    cases hb : write_block i b2 with
    | mk r i1 =>
      simp only [hb] at h
      cases r with
      | error e => simp at h
      | ok bl2 =>
        simp only [Prod.mk.injEq, Except.ok.injEq] at h
        have a1 := write_block_ok_state i b2 bl2 i1 hb
        omega

/-- On the success path the `else if` loop leaves `self.indent`
unchanged. -/
theorem write_elseifs_ok_state (i : Nat) (es : ElseIfList) :
    ∀ l j, write_elseifs i es = (Except.ok l, j) → j = i := by
  cases es with
  | nil =>
    intro l j h
    simp only [write_elseifs, Prod.mk.injEq, Except.ok.injEq] at h
    omega
  | cons e rest =>
    cases e with
    | mk cond blk =>
      intro l j h
      simp only [write_elseifs] at h
      cases hc : expr_to_str cond with
      | error err => simp only [hc] at h; simp at h
      | ok c =>
        simp only [hc] at h
        cases hb : write_block i blk with
        | mk r i1 =>
          simp only [hb] at h
          cases r with
          | error err => simp at h
          | ok bl =>
            cases h2 : write_elseifs i1 rest with
            | mk r2 i2 =>
              simp only [h2] at h
              cases r2 with
              | error err => simp at h
              | ok rl =>
                simp only [Prod.mk.injEq, Except.ok.injEq] at h
                have a1 := write_block_ok_state i blk bl i1 hb
                have a2 := write_elseifs_ok_state i1 rest rl i2 h2
                omega

end

/-! Claims -/

/-- C1 (counterexample): the rendered method call does not use
member-call syntax on the receiver.  For `obj:m(x)` the output is
`m(obj, x)`, not `obj.m(obj, x)`: the receiver appears only once, as
the first argument. -/
theorem method_call_member_syntax_cex :
    funcall_to_string (.mk (.ident "obj") (Option.some "m")
        (.cons (.ident "x") .nil)) = .ok "m(obj, x)"
    ∧ "m(obj, x)" ≠ "obj.m(obj, x)" := ⟨rfl, by decide⟩

/-- C1 (amended): for every function-call expression invoked as a
method, the rendered output uses the bare method name as the callee and
passes the receiver as the explicit first argument — `method(receiver,
args...)`, with a comma separator exactly when further arguments
exist — so the receiver appears exactly once. -/
theorem method_call_rendering (p : Expression) (m ps asS : String)
    (args : ExprList) (hp : expr_to_str p = .ok ps)
    (ha : args_to_str args = .ok asS) :
    funcall_to_string (.mk p (Option.some m) args)
      = .ok (m ++ "(" ++ (ps ++ (if args.isEmpty then "" else ", "))
          ++ asS ++ ")") := by
  simp only [funcall_to_string, hp, ha]

/-- Witness for C1's amended theorem at `obj:m(x)`. -/
theorem method_call_rendering_witness :
    funcall_to_string (.mk (.ident "obj") (Option.some "m")
        (.cons (.ident "x") .nil)) = .ok "m(obj, x)" := by
  have h := method_call_rendering (.ident "obj") "m" "obj" "x"
    (.cons (.ident "x") .nil) (by rfl) (by rfl)
  exact h

/-- C2 (code bug): a string literal containing the byte `0x0A` is
rendered as `"\xa"` — a one-hex-digit escape, because `{:x?}` does not
zero-pad — which is not a sequence of well-formed two-digit hex escapes
and therefore cannot decode back to the original byte; a byte at or
above `0x10` (here `0xab`) does round-trip. -/
theorem string_literal_single_digit_escape :
    expr_to_str (.string [10]) = .ok "\"\\xa\""
    ∧ decodeHexEscapes (string_bytes_to_str [10]).toList = Option.none
    ∧ decodeHexEscapes (string_bytes_to_str [171]).toList = Option.some [171] :=
  ⟨rfl, by decide, by decide⟩

/-- C3: if translation of a block fails, for any reason at any depth,
nothing at all is written to the supplied output destination: all
intermediate rendering goes to the private buffer, and the flush to the
destination happens only after the whole traversal succeeded. -/
theorem luaize_error_no_partial_output (ast : Block) (dest : List String)
    (e : Err) (i : Nat) (h : write_block 0 ast = (.error e, i)) :
    luaize ast dest = (.error e, dest) := by
  simp only [luaize, h]

/-- Witness for C3: a failing translation leaves the destination's
prior contents untouched. -/
theorem luaize_error_no_partial_output_witness :
    luaize unsupportedStmtBlock ["existing line"]
      = (.error (.unsupported "Statement unsupported: Goto"), ["existing line"]) :=
  luaize_error_no_partial_output unsupportedStmtBlock ["existing line"]
    (.unsupported "Statement unsupported: Goto") 1 (by rfl)

/-- C4 (code bug): in `while a do while b do break end end` the
depth-2 line `break;` is emitted with 12 leading spaces, not the
claimed 8: every enclosing flush prefixes four spaces times its own
absolute depth, so a depth-N line receives 4·(N + (N-1) + ... + 1)
spaces. -/
theorem nested_indentation_overcounts :
    write_block 0 nestedWhileBlock
      = (.ok ["while (a) \x7b", "    while (b) \x7b", "            break;",
          "    \x7d", "\x7d"], 0)
    ∧ "            break;" ≠ "        break;" := ⟨rfl, by decide⟩

/-- C5 (code bug): a trailing return with zero values passes the
more-than-one check and then indexes `values[0]` on the empty vector —
a panic, not a rendered `return`; two or more values do fail with the
unsupported-construct error. -/
theorem return_zero_values_out_of_bounds :
    write_block 0 bareReturnBlock
      = (.error (.indexOutOfBounds "index out of bounds: the len is 0 but the index is 0"), 1)
    ∧ write_block 0 twoValueReturnBlock
      = (.error (.unsupported "Multiple return values currently unsupported"), 1) :=
  ⟨rfl, rfl⟩

/-- C6: every supported binary expression renders as the parenthesized
`(<lhs> <op> <rhs>)` with the operator drawn from the substitution
table: add `+`, sub `-`, mul `*`, div `/`, floor-div `/`, mod `*`,
concat `+`, equal `===`, not-equal `!==`, and `>`, `>=`, `<`, `<=`. -/
theorem binary_operator_table (l r : Expression) (ls rs : String)
    (hl : expr_to_str l = .ok ls) (hr : expr_to_str r = .ok rs) :
    (∀ op s, binop_str op = Option.some s →
      expr_to_str (.binary op l r) = .ok ("(" ++ ls ++ s ++ rs ++ ")"))
    ∧ binop_str .add = Option.some "+"
    ∧ binop_str .sub = Option.some "-"
    ∧ binop_str .mul = Option.some "*"
    ∧ binop_str .div = Option.some "/"
    ∧ binop_str .floorDiv = Option.some "/"
    ∧ binop_str .mod = Option.some "*"
    ∧ binop_str .concat = Option.some "+"
    ∧ binop_str .equal = Option.some "==="
    ∧ binop_str .notEqual = Option.some "!=="
    ∧ binop_str .greaterThan = Option.some ">"
    ∧ binop_str .greaterEqual = Option.some ">="
    ∧ binop_str .lessThan = Option.some "<"
    ∧ binop_str .lessEqual = Option.some "<=" := by
  refine ⟨?_, rfl, rfl, rfl, rfl, rfl, rfl, rfl, rfl, rfl, rfl, rfl, rfl, rfl⟩
  intro op s h
  simp only [expr_to_str, h, hl, hr]

/-- Witness for C6 at `a % b` (the mis-mapped modulo): the rendering is
`(a*b)`. -/
theorem binary_operator_table_witness :
    expr_to_str (.binary .mod (.ident "a") (.ident "b")) = .ok "(a*b)" := by
  have h := binary_operator_table (.ident "a") (.ident "b") "a" "b"
    (by rfl) (by rfl)
  exact h.1 .mod "*" (by rfl)

/-- C7: every statement violating an arity constraint — an assignment
with more than one target or more than one value, a local declaration
with more than one name or without an initializer, or a function
definition (named or local) with a variadic parameter list — makes
`write_block` fail with the unsupported-construct error. -/
theorem arity_violations_unsupported (i : Nat) :
    (∀ lhs rhs : ExprList, 1 < lhs.length ∨ 1 < rhs.length →
      write_block i (.mk (.cons (.assignment lhs rhs) .nil) Option.none)
        = (.error (.unsupported "Parallel assignment currently unsupported"), i + 1))
    ∧ (∀ (names : List String) (values : Option ExprList), 1 < names.length →
      write_block i (.mk (.cons (.localDeclaration names values) .nil) Option.none)
        = (.error (.unsupported "Local multiple declarations currently unsupported"), i + 1))
    ∧ (∀ names : List String, ∃ m,
      write_block i (.mk (.cons (.localDeclaration names Option.none) .nil) Option.none)
        = (.error (.unsupported m), i + 1))
    ∧ (∀ (nms ps : List String) (blk : Block),
      write_block i (.mk (.cons (.functionDefinition nms ps true blk) .nil) Option.none)
        = (.error (.unsupported "Variadic functions currently unsupported"), i + 1))
    ∧ (∀ (nm : String) (ps : List String) (blk : Block),
      write_block i (.mk (.cons (.functionDefinitionLocal nm ps true blk) .nil) Option.none)
        = (.error (.unsupported "Variadic functions currently unsupported"), i + 1)) := by
  have lift : ∀ (s : Statement) (e : Err),
      write_stmt (i + 1) s = (.error e, i + 1) →
      write_block i (.mk (.cons s .nil) Option.none) = (.error e, i + 1) := by
    intro s e hs
    simp only [write_block, write_stmts, hs]
  refine ⟨?_, ?_, ?_, ?_, ?_⟩
  · intro lhs rhs h
    exact lift _ _ (by rw [write_stmt_eq_assignment, if_pos h])
  · intro names values h
    exact lift _ _ (by rw [write_stmt_eq_localDeclaration, if_pos h])
  · intro names
    by_cases hn : 1 < names.length
    · exact ⟨"Local multiple declarations currently unsupported",
        lift _ _ (by rw [write_stmt_eq_localDeclaration, if_pos hn])⟩
    · refine ⟨"Local declarations without assignment unsupported",
        lift _ _ ?_⟩
      rw [write_stmt_eq_localDeclaration, if_neg hn]
  · intro nms ps blk
    exact lift _ _ (by rw [write_stmt_eq_functionDefinition]; rfl)
  · intro nm ps blk
    exact lift _ _ (by rw [write_stmt_eq_functionDefinitionLocal]; rfl)

/-- Witness for C7 at `a, b = 1` with entry indent 0. -/
theorem arity_violations_unsupported_witness :
    write_block 0 (.mk (.cons (.assignment
        (.cons (.ident "a") (.cons (.ident "b") .nil))
        (.cons (.numeric 1) .nil)) .nil) Option.none)
      = (.error (.unsupported "Parallel assignment currently unsupported"), 0 + 1) :=
  (arity_violations_unsupported 0).1
    (.cons (.ident "a") (.cons (.ident "b") .nil))
    (.cons (.numeric 1) .nil) (by decide)

/-- C8 (counterexample): an erroring `write_block` invocation does not
restore the indentation depth — entered at 0 on a failing block, it
returns with the counter at 1. -/
theorem indent_not_restored_on_error_cex :
    write_block 0 parallelAssignBlock
      = (.error (.unsupported "Parallel assignment currently unsupported"), 1)
    ∧ (1 : Nat) ≠ 0 := ⟨rfl, by decide⟩

/-- C8 (amended): every `write_block` invocation that returns
successfully restores the indentation depth to its entry value; an
invocation that returns an error may leave the counter above its entry
value (the early return skips the decrement). -/
theorem write_block_indent_discipline (ind : Nat) (b : Block)
    (l : List String) (j : Nat) (h : write_block ind b = (.ok l, j)) :
    j = ind :=
  write_block_ok_state ind b l j h

/-- Witness for C8's amended theorem: a successful call entered at
depth 2 returns at depth 2. -/
theorem write_block_indent_discipline_witness :
    write_block 2 (.mk (.cons .breakS .nil) Option.none)
      = (.ok ["        break;"], 2)
    ∧ (2 : Nat) = 2 :=
  ⟨rfl, write_block_indent_discipline 2 (.mk (.cons .breakS .nil) Option.none)
    ["        break;"] 2 (by rfl)⟩

/-- C9: the reserved self-reference name `this` fails with the
illegal-identifier error when used as a bare identifier; every other
identifier renders as its bare name. -/
theorem ident_this_illegal :
    expr_to_str (.ident "this")
      = .error (.illegalIdent "Illegal identifier 'this'")
    ∧ ∀ n : String, n ≠ "this" → expr_to_str (.ident n) = .ok n := by
  refine ⟨rfl, fun n hn => ?_⟩
  simp only [expr_to_str]
  rw [if_neg hn]

/-- Witness for C9 at the identifier `x`. -/
theorem ident_this_illegal_witness :
    expr_to_str (.ident "x") = .ok "x" :=
  ident_this_illegal.2 "x" (by decide)

/-- C10 (counterexample): for `if x > 0 then return 1 else return -1
end` at top level the emitted output is not the text claimed by the
specification (whose else branch reads `return (-x);`). -/
theorem if_else_scenario_cex :
    rendered_text ifScenarioBlock
      ≠ Option.some "if ((x>0)) \x7b\n    return 1;\n\x7d\nelse \x7b\n    return (-x);\n\x7d\n" := by
  decide

/-- C10 (amended): for `if x > 0 then return 1 else return -1 end` at
top level the emitted output is exactly
`if ((x>0)) {\n    return 1;\n}\nelse {\n    return (-1);\n}\n` — the
else branch renders the literal `-1` as `(-1)`. -/
theorem if_else_scenario_output :
    rendered_text ifScenarioBlock
      = Option.some "if ((x>0)) \x7b\n    return 1;\n\x7d\nelse \x7b\n    return (-1);\n\x7d\n" :=
  rfl
